import Mathlib

/-!
Verification development for the Emmet abbreviation-tracking engine of the
emmetio/nova-plugin repository.

The embedding models:
* the abbreviation tracker module of `src/main.ts` (class `AbbreviationTracker`,
  `startTracking`, `stopTracking`, `handleChange`, `handleSelectionChange`);
* the earlier, simpler tracker of `src/autocomplete/tracker.ts`;
* the tracking policy `startAbbreviationTracking` with its word-boundary
  regular expressions (`reWordBound`, `reStylesheetWordBound`);
* the stylesheet context classifier `getCSSContext` of `lib/context.ts`.

Machine numbers are modelled as `Int` (JavaScript arithmetic on document
offsets is exact integer arithmetic in the ranges involved).  External
collaborators (the Emmet abbreviation parser and expander, the markup and
stylesheet scanners, the activation-context classifier) are passed in as
explicit function parameters, mirroring the import boundary of the source.
-/

namespace Emmet

/-- JavaScript `String.prototype.slice` index normalisation: negative indices
count from the end, then the index is clamped to `[0, len]`. -/
def jsIndex (len : Int) (i : Int) : Nat :=
  (max 0 (min (if i < 0 then len + i else i) len)).toNat

/-- JavaScript `str.slice(a, b)` on a list of characters. -/
def jsSliceList (l : List Char) (a b : Int) : List Char :=
  let len : Int := (l.length : Int)
  (l.take (jsIndex len b)).drop (jsIndex len a)

/-- JavaScript `str.slice(a, b)`. -/
def jsSlice (s : String) (a b : Int) : String :=
  ⟨jsSliceList s.data a b⟩

/-- JavaScript `str.slice(a)` (slice to the end of the string). -/
def jsSliceFrom (s : String) (a : Int) : String :=
  jsSlice s a (s.length : Int)

/-- Host editor snapshot: full document text, caret offset
(`selectedRange.start` of the test stub in `test/assets/editor.ts`), and the
document syntax name (`editor.document.syntax`, `''` when absent).  The word
`dialect` is used for the syntax name. -/
structure Editor where
  content : String
  caret : Int
  dialect : String := "html"
  deriving Repr, DecidableEq

/-- Document length, `editor.document.length`. -/
def Editor.len (e : Editor) : Int :=
  (e.content.length : Int)

/-- From `lib/utils.ts` (src/unnamed/part_009, line 66, the text-snapshot
accessor): `getContent` returns
`editor.getTextInRange(new Range(0, editor.document.length))`, the full
document text. -/
def getContent (e : Editor) : String :=
  e.content

/-- From `lib/utils.ts` (src/unnamed/part_009, line 59): `getCaret` returns
`editor.selectedRange.start`. -/
def getCaret (e : Editor) : Int :=
  e.caret

/-- From `lib/utils.ts` (src/unnamed/part_009, line 189): `substr(editor,
range)` returns `editor.getTextInRange(new Range(range[0], range[1]))`; the
editor stub of `test/assets/editor.ts` implements `getTextInRange(range)` as
`content.slice(range.start, range.end)`. -/
def substr (e : Editor) (r : Int × Int) : String :=
  jsSlice e.content r.1 r.2

/-- From `lib/utils.ts` (src/unnamed/part_009, line 49; `src/utils.ts` has an
identical copy): `replaceWithSnippet` deletes `range` and inserts the snippet
at `range.start`. -/
def replaceWithSnippet (e : Editor) (r : Int × Int) (snippet : String) : Editor :=
  { e with content := jsSlice e.content 0 r.1 ++ snippet ++ jsSliceFrom e.content r.2 }

/-- Parsed abbreviation outcome of the tracker in `src/main.ts`: the tagged
union `ParsedAbbreviation | ParsedAbbreviationError`. -/
inductive ParsedAbbr where
  /-- `type: 'abbreviation'` with raw text, `simple` flag and preview. -/
  | abbreviation (abbr : String) (simple : Bool) (preview : String)
  /-- `type: 'error'` with raw text and the parse error's message and offset. -/
  | error (abbr : String) (message : String) (pos : Int)
  deriving Repr, DecidableEq

/-- Cached activation context (`UserConfig` of the `emmet` package, reduced to
the fields the tracker inspects): abbreviation type (`'markup'` or
`'stylesheet'`) and the structural context name `context?.name`. -/
structure Options where
  type : String := "markup"
  contextName : Option String := none
  deriving Repr, DecidableEq

/-- Result of invoking the external Emmet parser and expander on an
abbreviation string. -/
inductive ParseOutcome where
  /-- parse succeeded: `simple` flag and expanded preview text. -/
  | ok (simple : Bool) (preview : String)
  /-- parse threw: error message and character offset. -/
  | err (message : String) (pos : Int)
  deriving Repr, DecidableEq

/-- External collaborators consumed by the tracker: the abbreviation
parser/expander (`markupAbbreviation` / `stylesheetAbbreviation` plus preview
expansion of `updateAbbreviation`, collapsed into one function of the cached
options and the raw text) and `getOptions` of `lib/emmet.ts`. -/
structure Env where
  parse : Options → String → ParseOutcome
  getOptions : Editor → Int → Options

/-- The tracker record of `src/main.ts` (`class AbbreviationTracker`). -/
structure AbbrTracker where
  /-- Last caret location in document. -/
  lastPos : Int
  /-- Last document length. -/
  lastLength : Int
  /-- Current abbreviation range, the pair `[start, end]`. -/
  range : Int × Int
  /-- Offset in range where abbreviation actually starts. -/
  offset : Int := 0
  /-- Parsed abbreviation for current range, may contain error (`null` at creation). -/
  abbreviation : Option ParsedAbbr := none
  /-- Cached options (`UserConfig | undefined`). -/
  options : Option Options := none
  /-- Whether tracking was explicitly invoked by the user. -/
  forced : Bool := false
  deriving Repr, DecidableEq

namespace AbbrTracker

/-- `shift(offset)`: shifts tracker location by given offset. -/
def shift (t : AbbrTracker) (offset : Int) : AbbrTracker :=
  { t with range := (t.range.1 + offset, t.range.2 + offset) }

/-- `extend(size)`: extends or shrinks range by given size. -/
def extend (t : AbbrTracker) (size : Int) : AbbrTracker :=
  { t with range := (t.range.1, t.range.2 + size) }

/-- `isValidRange()`: `range[0] < range[1] || (range[0] === range[1] && forced)`. -/
def isValidRange (t : AbbrTracker) : Bool :=
  t.range.1 < t.range.2 || (t.range.1 == t.range.2 && t.forced)

/-- `contains(pos)`: `pos >= range[0] && pos <= range[1]`. -/
def contains (t : AbbrTracker) (pos : Int) : Bool :=
  pos ≥ t.range.1 && pos ≤ t.range.2

end AbbrTracker

/-- `updateAbbreviation(editor)` of `src/main.ts`: extract the tracked
substring, strip the leading `offset` characters, obtain options if absent,
and reparse from scratch, storing either a valid outcome or the parse error.
The diagnostics side effects (`IssueCollection`) are external UI and are not
modelled. -/
def updateAbbreviation (env : Env) (e : Editor) (t : AbbrTracker) : AbbrTracker :=
  let abbr0 := substr e t.range
  -- `if (this.offset) abbr = abbr.slice(this.offset)` (0 is falsy)
  let abbr := if t.offset ≠ 0 then jsSliceFrom abbr0 t.offset else abbr0
  let opts := match t.options with
    | none => env.getOptions e t.range.1
    | some o => o
  let t1 := { t with options := some opts, abbreviation := none }
  -- `if (!abbr) return` (empty string is falsy)
  if abbr = "" then t1
  else
    match env.parse opts abbr with
    | .ok simple preview =>
        { t1 with abbreviation := some (.abbreviation abbr simple preview) }
    | .err m p =>
        { t1 with abbreviation := some (.error abbr m p) }

/-- `StartTrackingParams` of `src/main.ts`. -/
structure StartParams where
  options : Option Options := none
  offset : Int := 0
  forced : Bool := false
  deriving Repr, DecidableEq

/-- `startTracking(editor, start, pos, params?)`: creates the record with
`range = [start, pos]`, `lastPos = pos`, `lastLength` the current document
length, applies params and immediately reparses.  The returned tracker is also
stored in the per-document registry (`cache.set`). -/
def startTracking (env : Env) (e : Editor) (start pos : Int)
    (params : Option StartParams) : AbbrTracker :=
  let t0 : AbbrTracker :=
    { lastPos := pos
      lastLength := e.len
      range := (start, pos)
      forced := match params with | some p => p.forced | none => false }
  let t1 := match params with
    | some p => { t0 with options := p.options, offset := p.offset }
    | none => t0
  updateAbbreviation env e t1

/-- `stopTracking(editor, skipRemove?)`: removes the registry entry; contents
of a forced abbreviation are additionally removed from the document.  The
registry for the single modelled document is an `Option AbbrTracker`. -/
def stopTracking (e : Editor) (reg : Option AbbrTracker) (skipRemove : Bool) :
    Editor × Option AbbrTracker :=
  match reg with
  | none => (e, none)
  | some t =>
      let e' := if t.forced && !skipRemove then replaceWithSnippet e t.range "" else e
      (e', none)

/-- The range/caret/length adjustment step inside `handleChange` of
`src/main.ts` (the `delta` decision table; all conditions read the values
destructured before any mutation, exactly as the source does). -/
def adjustTracker (e : Editor) (t : AbbrTracker) : AbbrTracker :=
  let lastPos := t.lastPos
  let range := t.range
  let length := e.len
  let pos := getCaret e
  let delta := length - t.lastLength
  let t1 := { t with lastLength := length, lastPos := pos }
  if delta < 0 then
    -- removed some content
    if lastPos = range.1 then t1.shift delta
    else if range.1 < lastPos ∧ lastPos ≤ range.2 then t1.extend delta
    else t1
  else if delta > 0 ∧ range.1 ≤ lastPos ∧ lastPos ≤ range.2 then
    -- inserted content
    t1.extend delta
  else t1

/-- The completion-accepted edge case tested at the end of `handleChange`:
the new outcome is an error, the previous outcome was a valid abbreviation,
and the new raw text equals the previous preview. -/
def completionAccepted (newAbbr lastAbbr : Option ParsedAbbr) : Bool :=
  match newAbbr, lastAbbr with
  | some (.error a _ _), some (.abbreviation _ _ preview) => a == preview
  | _, _ => false

/-- Result of `handleChange`: the (possibly edited) document, the registry
entry after the call, and the returned tracker. -/
structure ChangeResult where
  editor : Editor
  registry : Option AbbrTracker
  ret : Option AbbrTracker
  deriving Repr, DecidableEq

/-- `handleChange(editor)` of `src/main.ts`. -/
def handleChange (env : Env) (e : Editor) (reg : Option AbbrTracker) : ChangeResult :=
  match reg with
  | none => ⟨e, none, none⟩
  | some tracker =>
      if tracker.lastPos < tracker.range.1 ∨ tracker.lastPos > tracker.range.2 then
        -- updated content outside abbreviation: reset tracker
        let s := stopTracking e (some tracker) false
        ⟨s.1, s.2, none⟩
      else
        let lastAbbr := tracker.abbreviation
        let t2 := adjustTracker e tracker
        -- ensure range is in valid state
        if !t2.isValidRange then
          let s := stopTracking e (some t2) false
          ⟨s.1, s.2, none⟩
        else
          let t3 := updateAbbreviation env e t2
          if completionAccepted t3.abbreviation lastAbbr then
            let s := stopTracking e (some t3) false
            ⟨s.1, s.2, none⟩
          else ⟨e, some t3, some t3⟩

/-- `handleSelectionChange(editor, caret)` of `src/main.ts`: only updates
`lastPos` of the registered tracker and returns it. -/
def handleSelectionChange (reg : Option AbbrTracker) (caret : Int) :
    Option AbbrTracker :=
  match reg with
  | none => none
  | some t => some { t with lastPos := caret }

/-! The earlier tracker snapshot of `src/autocomplete/tracker.ts`: a plain
record without parsing, with its own `handleChange` decision table. -/

namespace Autocomplete

/-- Syntax lists of `src/syntax.ts`. -/
def markupSyntaxes : List String :=
  ["html", "xml", "xsl", "jsx", "haml", "jade", "pug", "slim"]

/-- Stylesheet syntax list of `src/syntax.ts`. -/
def stylesheetSyntaxes : List String :=
  ["css", "scss", "sass", "less", "sss", "stylus", "postcss"]

/-- `isSupported(syntax)` of `src/syntax.ts`. -/
def isSupported (d : String) : Bool :=
  markupSyntaxes.contains d || stylesheetSyntaxes.contains d

/-- `allowTracking(editor)` of `src/autocomplete/tracker.ts`:
`syntax ? isSupported(syntax) : false` (the empty string is falsy). -/
def allowTracking (e : Editor) : Bool :=
  if e.dialect = "" then false else isSupported e.dialect

/-- The tracker record of `src/autocomplete/tracker.ts`. -/
structure Tracker where
  /-- Last tracked caret position. -/
  lastPos : Int
  /-- Last document size. -/
  lastLength : Int
  /-- Tracked abbreviation range. -/
  range : Int × Int
  deriving Repr, DecidableEq

/-- `getTracker(editor)` of `src/autocomplete/tracker.ts`: the cache entry,
visible only when tracking is allowed for the editor's syntax. -/
def getTracker (e : Editor) (reg : Option Tracker) : Option Tracker :=
  if allowTracking e then reg else none

/-- `startTracking(editor, start, pos)` of `src/autocomplete/tracker.ts`. -/
def startTracking (e : Editor) (start pos : Int) : Tracker :=
  { lastPos := pos, lastLength := e.len, range := (start, pos) }

/-- `handleChange(editor)` of `src/autocomplete/tracker.ts`; returns the
registry entry after the call (`stopTracking` only deletes the cache entry). -/
def handleChange (e : Editor) (reg : Option Tracker) : Option Tracker :=
  match getTracker e reg with
  | none => reg
  | some t =>
      if t.lastPos < t.range.1 ∨ t.lastPos > t.range.2 then
        -- updated content outside abbreviation: reset tracker
        none
      else
        let lastPos := t.lastPos
        let length := e.len
        let pos := getCaret e
        let delta := length - t.lastLength
        let range' :=
          if delta < 0 then
            -- removed some content
            if lastPos = t.range.1 then (t.range.1 + delta, t.range.2 + delta)
            else if lastPos > t.range.1 ∧ lastPos ≤ t.range.2 ∧ lastPos ≠ pos then
              (t.range.1, t.range.2 + delta)
            else t.range
          else if delta > 0 ∧ lastPos ≥ t.range.1 ∧ lastPos ≤ t.range.2 then
            -- inserted content in abbreviation
            (t.range.1, t.range.2 + delta)
          else t.range
        -- ensure range is in valid state
        if range'.2 ≤ range'.1 then none
        else some { lastPos := pos, lastLength := length, range := range' }

end Autocomplete

/-! Tracking policy of `src/abbreviation/index.ts` (part_011): word-boundary
regular expressions, paired-bracket absorption and `startAbbreviationTracking`. -/

namespace Policy

/-- JavaScript regex class `\s` (ASCII part plus NBSP; the further Unicode
space code points never occur in the claims under study). -/
def isJSSpace (c : Char) : Bool :=
  c = ' ' || c = '\t' || c = '\n' || c = '\x0d' || c = '\x0b' || c = '\x0c' || c = ' '

/-- First character class of `reWordBound`: `[\s>;"\']`. -/
def isWordBoundPre (c : Char) : Bool :=
  isJSSpace c || c = '>' || c = ';' || c = '"' || c = '\''

/-- Second character class of `reWordBound`: `[a-zA-Z.#!@\[\(]`. -/
def isAbbrStart (c : Char) : Bool :=
  c.isAlpha || c = '.' || c = '#' || c = '!' || c = '@' || c = '[' || c = '('

/-- Anchored test of `reWordBound = /^[\s>;"\']?[a-zA-Z.#!@\[\(]$/`. -/
def reWordBoundTest (s : String) : Bool :=
  match s.data with
  | [c] => isAbbrStart c
  | [b, c] => isWordBoundPre b && isAbbrStart c
  | _ => false

/-- First character class of `reStylesheetWordBound`: `[\s;"\']`. -/
def isStyleBoundPre (c : Char) : Bool :=
  isJSSpace c || c = ';' || c = '"' || c = '\''

/-- Second character class of `reStylesheetWordBound`: `[a-zA-Z!@]`. -/
def isStyleAbbrStart (c : Char) : Bool :=
  c.isAlpha || c = '!' || c = '@'

/-- Anchored test of `reStylesheetWordBound = /^[\s;"\']?[a-zA-Z!@]$/`. -/
def reStylesheetWordBoundTest (s : String) : Bool :=
  match s.data with
  | [c] => isStyleAbbrStart c
  | [b, c] => isStyleBoundPre b && isStyleAbbrStart c
  | _ => false

/-- Test of `reJSXAbbrStart = /^[a-zA-Z.#\[\(]$/` on a single character. -/
def reJSXAbbrStartTest (c : Char) : Bool :=
  c.isAlpha || c = '.' || c = '#' || c = '[' || c = '('

/-- `isJSX` of `lib/syntax.ts`: `jsxSyntaxes = ['jsx', 'tsx']`. -/
def isJSX (d : String) : Bool :=
  d = "jsx" || d = "tsx"

/-- Modelled from the spec: `JSX_PREFIX` of `lib/emmet.ts` (not in the
snapshot) is the explicit activation marker for JSX, a leading `<`. -/
def jsxMarker : Char := '<'

/-- Keys of the `pairs` object: opening brace, bracket, paren. -/
def pairsKeys : List Char := ['\x7b', '[', '(']

/-- `pairs[c]`: the matching closing character for an opening one. -/
def pairClose (c : Char) : Option Char :=
  if c = '\x7b' then some '\x7d'
  else if c = '[' then some ']'
  else if c = '(' then some ')'
  else none

/-- Modelled from the spec: `CSSAbbreviationScope.Section` of the external
`emmet` package, the marker naming "section/selector scope" contexts. -/
def cssSectionScope : String := "@@section"

/-- Anchored test of the selector-heuristic regex `/^:\s*;?$/`. -/
def reEmptyValueTest (s : String) : Bool :=
  match s.data with
  | ':' :: rest =>
      let r := rest.dropWhile isJSSpace
      r = [] || r = [';']
  | _ => false

/-- Result of `startAbbreviationTracking`: registry entry after the call and
the returned tracker. -/
structure StartResult where
  registry : Option AbbrTracker
  ret : Option AbbrTracker
  deriving Repr, DecidableEq

/-- `startAbbreviationTracking(editor, pos)` of `src/abbreviation/index.ts`.
The activation-context classifier `getActivationContext` (which itself calls
the external `@emmetio/action-utils` scanners) is passed in as `getCtx`. -/
def startAbbreviationTracking (env : Env) (getCtx : Int → Option Options)
    (e : Editor) (pos : Int) : StartResult :=
  -- last 2 characters: first should be a word bound (or empty), second must
  -- be abbreviation start
  let pfx := substr e (max 0 (pos - 2), pos)
  let startOffs : Int × Int :=
    if isJSX e.dialect then
      -- in JSX, abbreviations should be prefixed
      match pfx.data with
      | [c0, c1] =>
          if c0 = jsxMarker ∧ reJSXAbbrStartTest c1 then (pos - 2, 1) else (-1, 0)
      | _ => (-1, 0)
    else if reWordBoundTest pfx then (pos - 1, 0)
    else (-1, 0)
  if startOffs.1 < 0 then ⟨none, none⟩
  else
    -- check if there is a paired character
    let endPos :=
      match pfx.data.getLast? with
      | some c =>
          match pairClose c with
          | some cl => if substr e (pos, pos + 1) = String.mk [cl] then pos + 1 else pos
          | none => pos
      | none => pos
    match getCtx pos with
    | none => ⟨none, none⟩
    | some options =>
        if options.type = "stylesheet" ∧ ¬ reStylesheetWordBoundTest pfx then
          -- additional check for stylesheet abbreviation start
          ⟨none, none⟩
        else
          let tracker := startTracking env e startOffs.1 endPos
            (some { options := some options, offset := startOffs.2 })
          match tracker.abbreviation with
          | some (.abbreviation a _ preview) =>
              if options.contextName = some cssSectionScope ∧
                  preview.startsWith a ∧
                  reEmptyValueTest (jsSliceFrom preview (a.length : Int)) then
                -- unresolved section-scope abbreviation expanded to `a: ;`
                ⟨none, none⟩
              else ⟨some tracker, some tracker⟩
          | _ => ⟨some tracker, some tracker⟩

end Policy

/-! Stylesheet context classifier `getCSSContext` of `lib/context.ts`
(part_001).  The external stylesheet scanner `scan` of
`@emmetio/css-matcher` is modelled as an explicit token list. -/

namespace CSSCtx

/-- Token kinds of the external stylesheet scanner (spec section 6). -/
inductive TokType where
  | Selector
  | PropertyName
  | PropertyValue
  | BlockStart
  | BlockEnd
  | Comment
  deriving Repr, DecidableEq

/-- One scanner token with its character range. -/
structure Token where
  type : TokType
  start : Int
  tokEnd : Int
  deriving Repr, DecidableEq

/-- Accumulated scan state: the selector/block nesting counter `section` and
the most recent property name `name`. -/
structure Acc where
  sect : Int
  name : String
  deriving Repr, DecidableEq

/-- One step of the token `switch` in `getCSSContext`. -/
def applyToken (code : String) (a : Acc) (t : Token) : Acc :=
  match t.type with
  | .Selector => { a with sect := a.sect + 1 }
  | .PropertyName => { a with name := jsSlice code t.start t.tokEnd }
  | .PropertyValue => { a with name := "" }
  | .BlockEnd => { a with sect := a.sect - 1 }
  | _ => a

/-- The scan loop of `getCSSContext`: walk tokens left to right; stop without
examining a token once its start reaches `pos`; stop on a direct hit
(`start <= pos && end >= pos`), which is legal only for a property value.
Returns the accumulated state and the `valid` flag. -/
def scanLoop (code : String) (pos : Int) : List Token → Acc → Acc × Bool
  | [], a => (a, true)
  | t :: rest, a =>
      if t.start ≥ pos then
        -- moved beyond target location, stop parsing
        (a, true)
      else if t.start ≤ pos ∧ t.tokEnd ≥ pos then
        -- direct hit into token: only allowed token here is property value
        (a, decide (t.type = .PropertyValue))
      else scanLoop code pos rest (applyToken code a t)

/-- `getCSSContext(code, pos)` of `lib/context.ts`, with the scanner's token
stream passed explicitly.  Returns the context name (`{ name }`), or `none`
when the location is illegal: `if (valid && (name || section)) return { name }`. -/
def getCSSContext (code : String) (tokens : List Token) (pos : Int) : Option String :=
  let r := scanLoop code pos tokens ⟨0, ""⟩
  if r.2 ∧ (r.1.name ≠ "" ∨ r.1.sect ≠ 0) then some r.1.name else none

/-- The classifier as described by the specification's words, parameterised by
the direct-hit convention: with `hitEnd = false` a direct hit is
`start <= pos < end` (the convention claimed in the spec), with
`hitEnd = true` it is `start < pos <= end` (attached to the end of a token,
which is what the source checks). -/
def cssContextSpec (hitEnd : Bool) (code : String) (tokens : List Token)
    (pos : Int) : Option String :=
  let keep : Token → Bool := fun t =>
    decide (t.start < pos) && !(cond hitEnd (decide (pos ≤ t.tokEnd)) (decide (pos < t.tokEnd)))
  let pre := tokens.takeWhile keep
  let nxt := (tokens.dropWhile keep).head?
  let acc := pre.foldl (applyToken code) ⟨0, ""⟩
  let legal : Bool :=
    match nxt with
    | some t => if t.start < pos then decide (t.type = .PropertyValue) else true
    | none => true
  if legal ∧ (acc.name ≠ "" ∨ acc.sect ≠ 0) then some acc.name else none

end CSSCtx

/-! Keystroke simulator of `test/assets/simutator.ts`: `input(text)` inserts
text at the caret, moves the caret to `start + text.length`, then fires the
`onChange` and `onSelectionChange` callbacks, which the autocomplete test
wires to `handleChange` and `handleSelectionChange`. -/

/-- Editor plus per-document tracker registry. -/
structure SimState where
  editor : Editor
  registry : Option AbbrTracker
  deriving Repr, DecidableEq

/-- `input(text)` of the simulator, with the test's callbacks wired in. -/
def simInput (env : Env) (s : SimState) (text : String) : SimState :=
  let e0 := s.editor
  let start := e0.caret
  let e1 : Editor :=
    { e0 with
      content := jsSlice e0.content 0 start ++ text ++ jsSliceFrom e0.content start
      caret := start + (text.length : Int) }
  let r := handleChange env e1 s.registry
  let reg2 := handleSelectionChange r.registry r.editor.caret
  { editor := r.editor, registry := reg2 }

/-! Concrete external-collaborator stubs used to evaluate the model on the
scenarios of the test suite. -/

/-- A parser stub that accepts every abbreviation (standing in for the
external Emmet parser on inputs it parses successfully, like `d`, `di`,
`div`). -/
def envOk : Env :=
  { parse := fun _ s => .ok false ("<" ++ s ++ ">")
    getOptions := fun _ _ => {} }

/-- A parser stub that rejects every abbreviation (standing in for the
external Emmet parser on unparsable input). -/
def envErr : Env :=
  { parse := fun _ _ => .err "Unexpected character" 0
    getOptions := fun _ _ => {} }

/-- The boolean `isValidRange` spelt as a proposition: `start <= end`, with
equality permitted only for a forced tracker. -/
def invariantHolds (t : AbbrTracker) : Prop :=
  t.range.1 < t.range.2 ∨ (t.range.1 = t.range.2 ∧ t.forced = true)

/-- The `forced` flag carried by optional `startTracking` parameters. -/
def startParamsForced (params : Option StartParams) : Bool :=
  match params with
  | some p => p.forced
  | none => false

/-- The paired-character condition of `startAbbreviationTracking`: the typed
character (the last one before the caret) is an opening bracket and the
character right after the caret is its matching closer. -/
def pairedAfterB (e : Editor) (pos : Int) : Bool :=
  match (substr e (max 0 (pos - 2), pos)).data.getLast? with
  | some c =>
      match Policy.pairClose c with
      | some cl => substr e (pos, pos + 1) == String.mk [cl]
      | none => false
  | none => false

/-- The deletion decision table exactly as claim C3 words it (with "strictly
inside the range" read as `range.start < lastPos < range.end`): predicted
range of any tracker surviving a `handleChange` call of
`src/autocomplete/tracker.ts`. -/
def c3ClaimTable (e : Editor) (t : Autocomplete.Tracker) : Prop :=
  ∀ t', Autocomplete.handleChange e (some t) = some t' →
    t'.range =
      (if t.lastPos = t.range.1 then
        (t.range.1 + (e.len - t.lastLength), t.range.2 + (e.len - t.lastLength))
      else if (t.range.1 < t.lastPos ∧ t.lastPos < t.range.2) ∧ t.lastPos ≠ e.caret then
        (t.range.1, t.range.2 + (e.len - t.lastLength))
      else t.range)

/-! Concrete fixtures for the claims. -/

/-- Editor used by the C1 counterexample (caret 3 in a 5-character document). -/
def cEd1 : Editor := ⟨"hello", 3, "html"⟩

/-- Editor used by the C1 witness. -/
def wEd1 : Editor := ⟨"hello", 7, "html"⟩

/-- Boundary-reset scenario of spec section 8: a character was just typed at
offset 0 while the tracker spans `main>div[title]` at `[7, 22)`. -/
def wEd2 : Editor := ⟨"bbefore main>div[title] aafter", 1, "html"⟩

/-- Tracker of the boundary-reset scenario: `lastPos = 0` is outside `[7, 22]`. -/
def wT2 : AbbrTracker := { lastPos := 0, lastLength := 29, range := (7, 22) }

/-- Counterexample input for C3: deletion with `lastPos` at the range's right
edge and a moved caret. -/
def cEd3 : Editor := ⟨"abcdefghi", 4, "html"⟩

/-- Counterexample tracker for C3 (`lastPos = range.end = 5`, previous length 10). -/
def cT3 : Autocomplete.Tracker := { lastPos := 5, lastLength := 10, range := (2, 5) }

/-- Witness input for the amended C3: same deletion, `lastPos` strictly inside. -/
def wT3 : Autocomplete.Tracker := { lastPos := 4, lastLength := 10, range := (2, 5) }

/-- Witness editor for the amended C3: caret moved to 3 by the deletion. -/
def wEd3 : Editor := ⟨"abcdefghi", 3, "html"⟩

/-- Editor after typing `i` at caret 8 of `"before d after"`. -/
def wEd4 : Editor := ⟨"before di after", 9, "html"⟩

/-- Tracker over `[7, 8)` of `"before d after"` before the insertion. -/
def wT4 : AbbrTracker := { lastPos := 8, lastLength := 14, range := (7, 8) }

/-- Simulator start state of the `abbreviation tracker` test:
document `"before d after"`, caret 8, tracker started over `[7, 8)`. -/
def c4Sim0 : SimState :=
  ⟨⟨"before d after", 8, "html"⟩,
   some (startTracking envOk ⟨"before d after", 8, "html"⟩ 7 8 none)⟩

/-- Simulator state after typing `i` then `v`. -/
def c4Sim2 : SimState := simInput envOk (simInput envOk c4Sim0 "i") "v"

/-- Editor after typing `[` at the end of `div` with the host auto-inserting
the matching `]` (content grew by two characters, caret between the pair). -/
def eA5 : Editor := ⟨"before div[] after", 11, "html"⟩

/-- Editor after typing `[` with no auto-inserted closer. -/
def eB5 : Editor := ⟨"before div[ after", 11, "html"⟩

/-- Tracker over `div` at `[7, 10)` before the `[` keystroke. -/
def tA5 : AbbrTracker := { lastPos := 10, lastLength := 16, range := (7, 10) }

/-- Editor for the C5 witness: `[` typed after a space, with `]` auto-inserted. -/
def wEd5 : Editor := ⟨"a []", 3, "html"⟩

/-- An activation-context stub returning a markup context everywhere. -/
def ctxMarkup : Int → Option Options := fun _ => some {}

/-- An activation-context stub returning a stylesheet context everywhere. -/
def ctxStylesheet : Int → Option Options := fun _ => some { type := "stylesheet" }

/-- Editor for the C6 witness. -/
def wEd6 : Editor := ⟨"ab", 1, "html"⟩

/-- Tracker for the C6 witness: previous outcome valid with preview `"ab"`,
equal to the text the failing reparse will see. -/
def wT6 : AbbrTracker :=
  { lastPos := 1, lastLength := 2, range := (0, 2)
    abbreviation := some (.abbreviation "ab" false "ab") }

/-- Source string of the C7 counterexample. -/
def c7code : String := "a: b"

/-- Token stream of the C7 counterexample: a property name and a property
value; offset 4 sits at the value token's end. -/
def c7toks : List CSSCtx.Token :=
  [⟨.PropertyName, 0, 1⟩, ⟨.PropertyValue, 3, 4⟩]

/-- The stylesheet scenario source of spec section 8 (braces escaped). -/
def scssSource : String := "$foo: 1;\n.a \x7b padding: 0; \x7d"

/-- Modelled from the spec: token stream of the external stylesheet scanner
(`scan` of `@emmetio/css-matcher`, spec section 6) over `scssSource`:
property name `$foo` at `[0, 4)`, value `1` at `[6, 7)`, selector `.a` at
`[9, 11)`, block start at `[12, 13)`, property name `padding` at `[14, 21)`,
value `0` at `[23, 24)`, block end at `[26, 27)`. -/
def scssTokens : List CSSCtx.Token :=
  [⟨.PropertyName, 0, 4⟩, ⟨.PropertyValue, 6, 7⟩, ⟨.Selector, 9, 11⟩,
   ⟨.BlockStart, 12, 13⟩, ⟨.PropertyName, 14, 21⟩, ⟨.PropertyValue, 23, 24⟩,
   ⟨.BlockEnd, 26, 27⟩]

/-- Editor for the C9 counterexample: `p` typed right after a `;` in a
stylesheet document. -/
def cEd9 : Editor := ⟨"x;p", 3, "css"⟩

/-- Editor for the C9 witness: `p` typed right after a `>`. -/
def wEd9 : Editor := ⟨"x>p", 3, "css"⟩

/-- Editor for the C10 counterexample (length unchanged since `lastLength`). -/
def cEd10 : Editor := ⟨"hello", 5, "html"⟩

/-- Degenerate but registered tracker (`range = [5, 5]`, not forced): the
state `startTracking(editor, 5, 5)` leaves in the registry. -/
def cT10 : AbbrTracker := { lastPos := 5, lastLength := 5, range := (5, 5) }

/-- Editor for the C10 witness. -/
def wEd10 : Editor := ⟨"ab", 1, "html"⟩

/-- Tracker for the C10 witness: valid range, equal-length event. -/
def wT10 : AbbrTracker := { lastPos := 1, lastLength := 2, range := (0, 2) }

/-! Basic frame lemmas: reparsing touches only `options` and `abbreviation`;
the adjustment step touches only `range`, `lastPos` and `lastLength`. -/

theorem updateAbbreviation_range (env : Env) (e : Editor) (t : AbbrTracker) :
    (updateAbbreviation env e t).range = t.range := by
  unfold updateAbbreviation
  dsimp only
  split <;> split <;> first
  | rfl
  | (split <;> rfl)

theorem updateAbbreviation_forced (env : Env) (e : Editor) (t : AbbrTracker) :
    (updateAbbreviation env e t).forced = t.forced := by
  unfold updateAbbreviation
  dsimp only
  split <;> split <;> first
  | rfl
  | (split <;> rfl)

theorem updateAbbreviation_lastPos (env : Env) (e : Editor) (t : AbbrTracker) :
    (updateAbbreviation env e t).lastPos = t.lastPos := by
  unfold updateAbbreviation
  dsimp only
  split <;> split <;> first
  | rfl
  | (split <;> rfl)

theorem updateAbbreviation_lastLength (env : Env) (e : Editor) (t : AbbrTracker) :
    (updateAbbreviation env e t).lastLength = t.lastLength := by
  unfold updateAbbreviation
  dsimp only
  split <;> split <;> first
  | rfl
  | (split <;> rfl)

theorem adjustTracker_forced (e : Editor) (t : AbbrTracker) :
    (adjustTracker e t).forced = t.forced := by
  unfold adjustTracker
  dsimp only
  split
  · split
    · rfl
    · split <;> rfl
  · split <;> rfl

theorem adjustTracker_lastPos (e : Editor) (t : AbbrTracker) :
    (adjustTracker e t).lastPos = e.caret := by
  unfold adjustTracker
  dsimp only
  split
  · split
    · rfl
    · split <;> rfl
  · split <;> rfl

theorem adjustTracker_lastLength (e : Editor) (t : AbbrTracker) :
    (adjustTracker e t).lastLength = e.len := by
  unfold adjustTracker
  dsimp only
  split
  · split
    · rfl
    · split <;> rfl
  · split <;> rfl

theorem adjustTracker_abbreviation (e : Editor) (t : AbbrTracker) :
    (adjustTracker e t).abbreviation = t.abbreviation := by
  unfold adjustTracker
  dsimp only
  split
  · split
    · rfl
    · split <;> rfl
  · split <;> rfl

theorem startTracking_range (env : Env) (e : Editor) (start pos : Int)
    (params : Option StartParams) :
    (startTracking env e start pos params).range = (start, pos) := by
  unfold startTracking
  dsimp only
  rw [updateAbbreviation_range]
  cases params <;> rfl

theorem startTracking_forced (env : Env) (e : Editor) (start pos : Int)
    (params : Option StartParams) :
    (startTracking env e start pos params).forced =
      (match params with | some p => p.forced | none => false) := by
  unfold startTracking
  dsimp only
  rw [updateAbbreviation_forced]
  cases params <;> rfl

theorem invariantHolds_iff (t : AbbrTracker) :
    invariantHolds t ↔ t.isValidRange = true := by
  simp [invariantHolds, AbbrTracker.isValidRange]

theorem stopTracking_registry (e : Editor) (reg : Option AbbrTracker) (skip : Bool) :
    (stopTracking e reg skip).2 = none := by
  cases reg <;> rfl

theorem adjustTracker_range_del_edge (e : Editor) (t : AbbrTracker)
    (hd : e.len < t.lastLength) (h : t.lastPos = t.range.1) :
    (adjustTracker e t).range =
      (t.range.1 + (e.len - t.lastLength), t.range.2 + (e.len - t.lastLength)) := by
  unfold adjustTracker
  dsimp only
  rw [if_pos (show e.len - t.lastLength < 0 by omega), if_pos h]
  rfl

theorem adjustTracker_range_del_inside (e : Editor) (t : AbbrTracker)
    (hd : e.len < t.lastLength) (h1 : t.range.1 < t.lastPos) (h2 : t.lastPos ≤ t.range.2) :
    (adjustTracker e t).range = (t.range.1, t.range.2 + (e.len - t.lastLength)) := by
  unfold adjustTracker
  dsimp only
  rw [if_pos (show e.len - t.lastLength < 0 by omega),
    if_neg (show ¬ t.lastPos = t.range.1 by omega), if_pos ⟨h1, h2⟩]
  rfl

theorem adjustTracker_range_ins (e : Editor) (t : AbbrTracker)
    (hd : t.lastLength < e.len) (h1 : t.range.1 ≤ t.lastPos) (h2 : t.lastPos ≤ t.range.2) :
    (adjustTracker e t).range = (t.range.1, t.range.2 + (e.len - t.lastLength)) := by
  unfold adjustTracker
  dsimp only
  rw [if_neg (show ¬ e.len - t.lastLength < 0 by omega),
    if_pos ⟨show e.len - t.lastLength > 0 by omega, h1, h2⟩]
  rfl

theorem adjustTracker_eq_of_same (e : Editor) (t : AbbrTracker)
    (hd : e.len = t.lastLength) :
    adjustTracker e t = { t with lastPos := getCaret e, lastLength := e.len } := by
  unfold adjustTracker
  dsimp only
  rw [if_neg (show ¬ e.len - t.lastLength < 0 by omega),
    if_neg (show ¬ (e.len - t.lastLength > 0 ∧ t.range.1 ≤ t.lastPos ∧ t.lastPos ≤ t.range.2) by
      rintro ⟨hc, -, -⟩; omega)]

/-- Characterisation of `handleChange` when the last caret is inside the
tracked span: the adjustment runs, then the validity check, the reparse and
the completion-accepted check. -/
theorem handleChange_some_eq (env : Env) (e : Editor) (t : AbbrTracker)
    (h : ¬(t.lastPos < t.range.1 ∨ t.lastPos > t.range.2)) :
    handleChange env e (some t) =
      (if !(adjustTracker e t).isValidRange then
        ⟨(stopTracking e (some (adjustTracker e t)) false).1, none, none⟩
      else
        let t3 := updateAbbreviation env e (adjustTracker e t)
        if completionAccepted t3.abbreviation t.abbreviation then
          ⟨(stopTracking e (some t3) false).1, none, none⟩
        else ⟨e, some t3, some t3⟩) := by
  unfold handleChange
  dsimp only
  rw [if_neg h]
  simp only [stopTracking_registry]

theorem handleChange_ret_range (env : Env) (e : Editor) (t : AbbrTracker)
    (h : ¬(t.lastPos < t.range.1 ∨ t.lastPos > t.range.2)) :
    ∀ t', (handleChange env e (some t)).ret = some t' →
      t'.range = (adjustTracker e t).range := by
  intro t' ht'
  rw [handleChange_some_eq env e t h] at ht'
  dsimp only at ht'
  split at ht'
  · simp at ht'
  · split at ht'
    · simp at ht'
    · rw [show (⟨e, some (updateAbbreviation env e (adjustTracker e t)),
          some (updateAbbreviation env e (adjustTracker e t))⟩ : ChangeResult).ret =
          some (updateAbbreviation env e (adjustTracker e t)) from rfl] at ht'
      cases ht'
      rw [updateAbbreviation_range]

theorem scanLoop_spec (code : String) (pos : Int) (tokens : List CSSCtx.Token) :
    ∀ a, CSSCtx.scanLoop code pos tokens a =
      ((tokens.takeWhile fun t => decide (t.start < pos) && !(decide (pos ≤ t.tokEnd))).foldl
          (CSSCtx.applyToken code) a,
       match (tokens.dropWhile fun t => decide (t.start < pos) && !(decide (pos ≤ t.tokEnd))).head? with
       | some t => if t.start < pos then decide (t.type = .PropertyValue) else true
       | none => true) := by
  induction tokens with
  | nil => intro a; rfl
  | cons t rest ih =>
      intro a
      unfold CSSCtx.scanLoop
      by_cases h1 : t.start ≥ pos
      · have hlt : ¬ (t.start < pos) := by omega
        have hk : (decide (t.start < pos) && !(decide (pos ≤ t.tokEnd))) = false := by
          simp [hlt]
        rw [if_pos h1]
        simp only [List.takeWhile_cons, List.dropWhile_cons]
        rw [hk]
        simp [hlt]
      · by_cases h2 : t.start ≤ pos ∧ t.tokEnd ≥ pos
        · have hlt : t.start < pos := by omega
          have hle : pos ≤ t.tokEnd := by omega
          have hk : (decide (t.start < pos) && !(decide (pos ≤ t.tokEnd))) = false := by
            simp [hle]
          rw [if_neg h1, if_pos h2]
          simp only [List.takeWhile_cons, List.dropWhile_cons]
          rw [hk]
          simp [hlt]
        · have hlt : t.start < pos := by omega
          have hgt : ¬ (pos ≤ t.tokEnd) := by omega
          have hk : (decide (t.start < pos) && !(decide (pos ≤ t.tokEnd))) = true := by
            simp [hlt, hgt]
          rw [if_neg h1, if_neg h2]
          simp only [List.takeWhile_cons, List.dropWhile_cons]
          rw [hk]
          rw [if_pos rfl, if_pos rfl]
          rw [List.foldl_cons]
          exact ih (CSSCtx.applyToken code a t)

/-! Claim theorems. -/

/-- Claim C1, counterexample: `startTracking` does not validate its inputs;
called with `start = 5`, `pos = 3` (violating its documented precondition) it
leaves a tracker with `range.start > range.end` registered, so the invariant
does not hold after every operation as the claim states. -/
theorem C1_counterexample :
    ¬ ((startTracking envOk cEd1 5 3 none).range.1 ≤
        (startTracking envOk cEd1 5 3 none).range.2) := by
  decide

/-- Claim C1 (amended): provided `startTracking` is called respecting its
documented precondition (`start < pos`, or `start = pos` with a forced
tracker), every tracker left in the registry by `startTracking`,
`handleChange`, `handleSelectionChange` or `stopTracking` satisfies
`range.start <= range.end` with equality only for a forced tracker; moreover
`handleChange` destroys, before returning, any tracker whose adjusted range
fails that invariant, and `stopTracking` always empties the registry. -/
theorem C1_range_invariant :
    (∀ env e start pos params,
        (start < pos ∨ (start = pos ∧ startParamsForced params = true)) →
        invariantHolds (startTracking env e start pos params))
    ∧ (∀ env e reg t',
        (handleChange env e reg).registry = some t' → invariantHolds t')
    ∧ (∀ env e t, (adjustTracker e t).isValidRange = false →
        (handleChange env e (some t)).registry = none ∧
        (handleChange env e (some t)).ret = none)
    ∧ (∀ reg caret t0 t', reg = some t0 → invariantHolds t0 →
        handleSelectionChange reg caret = some t' → invariantHolds t')
    ∧ (∀ e reg skip, (stopTracking e reg skip).2 = none) := by
  refine ⟨?_, ?_, ?_, ?_, ?_⟩
  · intro env e start pos params h
    unfold invariantHolds
    rw [startTracking_range, startTracking_forced]
    rcases h with h | ⟨h1, h2⟩
    · exact Or.inl h
    · exact Or.inr ⟨h1, by rw [← h2]; rfl⟩
  · intro env e reg t' h
    match reg with
    | none => simp [handleChange] at h
    | some tracker =>
        by_cases hout : tracker.lastPos < tracker.range.1 ∨ tracker.lastPos > tracker.range.2
        · unfold handleChange at h
          dsimp only at h
          rw [if_pos hout] at h
          rw [show (⟨(stopTracking e (some tracker) false).1,
              (stopTracking e (some tracker) false).2, none⟩ : ChangeResult).registry =
              (stopTracking e (some tracker) false).2 from rfl,
            stopTracking_registry] at h
          exact absurd h (by simp)
        · rw [handleChange_some_eq env e tracker hout] at h
          dsimp only at h
          split at h
          · simp at h
          · next hval =>
              split at h
              · simp at h
              · have h' : updateAbbreviation env e (adjustTracker e tracker) = t' := by
                  simpa using h
                rw [invariantHolds_iff, ← h']
                have : (updateAbbreviation env e (adjustTracker e tracker)).isValidRange =
                    (adjustTracker e tracker).isValidRange := by
                  unfold AbbrTracker.isValidRange
                  rw [updateAbbreviation_range, updateAbbreviation_forced]
                rw [this]
                simpa using hval
  · intro env e t hinv
    by_cases hout : t.lastPos < t.range.1 ∨ t.lastPos > t.range.2
    · unfold handleChange
      dsimp only
      rw [if_pos hout]
      exact ⟨stopTracking_registry e (some t) false, rfl⟩
    · rw [handleChange_some_eq env e t hout]
      dsimp only
      rw [if_pos (by rw [hinv]; rfl)]
      exact ⟨rfl, rfl⟩
  · intro reg caret t0 t' hreg hinv h
    subst hreg
    unfold handleSelectionChange at h
    cases h
    exact hinv
  · exact stopTracking_registry

/-- Claim C1, witness for the amended theorem: `startTracking` with the
precondition satisfied yields a tracker with a valid range. -/
theorem C1_witness :
    ((5 : Int) < 7 ∨ ((5 : Int) = 7 ∧ startParamsForced none = true)) ∧
    invariantHolds (startTracking envOk wEd1 5 7 none) :=
  ⟨Or.inl (by decide),
   C1_range_invariant.1 envOk wEd1 5 7 none (Or.inl (by decide))⟩

/-- Claim C2: if the last known caret is outside the closed tracked range,
`handleChange` removes the registry entry and returns no tracker, whatever the
edit's size or direction; the document keeps the edit (it is left untouched
for a non-forced tracker, and only the tracked span is removed for a forced
one). -/
theorem C2_outside_edit_reset (env : Env) (e : Editor) (t : AbbrTracker)
    (h : t.lastPos < t.range.1 ∨ t.lastPos > t.range.2) :
    handleChange env e (some t) =
      ⟨if t.forced then replaceWithSnippet e t.range "" else e, none, none⟩ := by
  unfold handleChange
  dsimp only
  rw [if_pos h]
  unfold stopTracking
  dsimp only
  cases t.forced <;> simp

/-- Claim C2, witness: the boundary-reset scenario of spec section 8 — a
character typed at offset 0 while `main>div[title]` is tracked at `[7, 22)`
destroys the tracker and keeps the edit. -/
theorem C2_witness :
    (wT2.lastPos < wT2.range.1 ∨ wT2.lastPos > wT2.range.2) ∧
    handleChange envOk wEd2 (some wT2) =
      ⟨if wT2.forced then replaceWithSnippet wEd2 wT2.range "" else wEd2, none, none⟩ :=
  ⟨Or.inl (by decide), C2_outside_edit_reset envOk wEd2 wT2 (Or.inl (by decide))⟩

/-- Claim C3, counterexample: a deletion with `lastPos` sitting exactly at
`range.end` (not strictly inside the range) and a moved caret does change the
range — both tracker variants extend `range.end` by the delta — whereas the
claim's decision table predicts an unchanged range. -/
theorem C3_counterexample : ¬ c3ClaimTable cEd3 cT3 := by
  intro h
  have h2 := h { lastPos := 4, lastLength := 9, range := (2, 4) } (by decide)
  revert h2
  decide

/-- Claim C3 (amended): for a deletion handled with the last caret inside the
inclusive tracked range, the tracker of `src/autocomplete/tracker.ts` shifts
both bounds by delta when `lastPos = range.start`; it extends `range.end` by
delta when `range.start < lastPos <= range.end` (the right edge included) and
the caret moved; otherwise the range is unchanged.  The tracker of
`src/main.ts` applies the same end-extension whenever
`range.start < lastPos <= range.end`, regardless of caret movement. -/
theorem C3_deletion_rule :
    (∀ e t, Autocomplete.allowTracking e = true →
      e.len < t.lastLength →
      t.range.1 ≤ t.lastPos → t.lastPos ≤ t.range.2 →
      ((t.lastPos = t.range.1 →
          ∀ t', Autocomplete.handleChange e (some t) = some t' →
            t'.range = (t.range.1 + (e.len - t.lastLength),
              t.range.2 + (e.len - t.lastLength)))
        ∧ (t.range.1 < t.lastPos → t.lastPos ≠ getCaret e →
          ∀ t', Autocomplete.handleChange e (some t) = some t' →
            t'.range = (t.range.1, t.range.2 + (e.len - t.lastLength)))
        ∧ (t.range.1 < t.lastPos → t.lastPos = getCaret e →
          ∀ t', Autocomplete.handleChange e (some t) = some t' →
            t'.range = t.range)))
    ∧ (∀ env e t, e.len < t.lastLength →
        t.range.1 < t.lastPos → t.lastPos ≤ t.range.2 →
        ∀ t', (handleChange env e (some t)).ret = some t' →
          t'.range = (t.range.1, t.range.2 + (e.len - t.lastLength))) := by
  constructor
  · intro e t hallow hd h1 h2
    have hget : Autocomplete.getTracker e (some t) = some t := by
      unfold Autocomplete.getTracker
      rw [if_pos hallow]
    have hout : ¬(t.lastPos < t.range.1 ∨ t.lastPos > t.range.2) := by omega
    refine ⟨?_, ?_, ?_⟩
    · intro hedge t' ht'
      unfold Autocomplete.handleChange at ht'
      rw [hget] at ht'
      dsimp only at ht'
      rw [if_neg hout, if_pos (show e.len - t.lastLength < 0 by omega),
        if_pos hedge] at ht'
      split at ht'
      · exact absurd ht' (by simp)
      · cases ht'; rfl
    · intro hlt hne t' ht'
      unfold Autocomplete.handleChange at ht'
      rw [hget] at ht'
      dsimp only at ht'
      rw [if_neg hout, if_pos (show e.len - t.lastLength < 0 by omega),
        if_neg (show ¬ t.lastPos = t.range.1 by omega),
        if_pos (show t.lastPos > t.range.1 ∧ t.lastPos ≤ t.range.2 ∧
          t.lastPos ≠ getCaret e from ⟨by omega, h2, hne⟩)] at ht'
      split at ht'
      · exact absurd ht' (by simp)
      · cases ht'; rfl
    · intro hlt heq t' ht'
      unfold Autocomplete.handleChange at ht'
      rw [hget] at ht'
      dsimp only at ht'
      rw [if_neg hout, if_pos (show e.len - t.lastLength < 0 by omega),
        if_neg (show ¬ t.lastPos = t.range.1 by omega),
        if_neg (show ¬ (t.lastPos > t.range.1 ∧ t.lastPos ≤ t.range.2 ∧
          t.lastPos ≠ getCaret e) from fun hc => hc.2.2 heq)] at ht'
      split at ht'
      · exact absurd ht' (by simp)
      · cases ht'; rfl
  · intro env e t hd h1 h2 t' ht'
    have hout : ¬(t.lastPos < t.range.1 ∨ t.lastPos > t.range.2) := by omega
    rw [handleChange_ret_range env e t hout t' ht',
      adjustTracker_range_del_inside e t hd h1 h2]

/-- Claim C3, witness for the amended theorem: deletion of one character with
`lastPos = 4` strictly inside `[2, 5]` and caret moved to 3 extends the
range's end by the delta. -/
theorem C3_witness :
    (Autocomplete.allowTracking wEd3 = true ∧ wEd3.len < wT3.lastLength ∧
      wT3.range.1 ≤ wT3.lastPos ∧ wT3.lastPos ≤ wT3.range.2 ∧
      wT3.range.1 < wT3.lastPos ∧ wT3.lastPos ≠ getCaret wEd3) ∧
    (∀ t', Autocomplete.handleChange wEd3 (some wT3) = some t' →
      t'.range = (wT3.range.1, wT3.range.2 + (wEd3.len - wT3.lastLength))) ∧
    Autocomplete.handleChange wEd3 (some wT3) =
      some { lastPos := 3, lastLength := 9, range := (2, 4) } :=
  ⟨by decide,
   fun t' ht' =>
     ((C3_deletion_rule.1 wEd3 wT3 (by decide) (by decide) (by decide)
        (by decide)).2.1 (by decide) (by decide)) t' ht',
   by decide⟩

/-- Claim C4: an insertion handled with the last caret inside the inclusive
tracked range grows `range.end` by exactly the length delta and leaves
`range.start` unchanged; in the test-suite scenario, typing `i` then `v` into
the tracker over `[7, 8)` of `"before d after"` yields document
`"before div after"` with tracked range `[7, 10)` and tracked text `"div"`. -/
theorem C4_insertion_rule :
    (∀ env e t, t.lastLength < e.len →
      t.range.1 ≤ t.lastPos → t.lastPos ≤ t.range.2 →
      ∀ t', (handleChange env e (some t)).ret = some t' →
        t'.range = (t.range.1, t.range.2 + (e.len - t.lastLength)))
    ∧ c4Sim2.editor.content = "before div after"
    ∧ c4Sim2.registry.map (fun t => t.range) = some (7, 10)
    ∧ c4Sim2.registry.map (fun t => substr c4Sim2.editor t.range) = some "div" := by
  refine ⟨?_, by decide, by decide, by decide⟩
  intro env e t hd h1 h2 t' ht'
  have hout : ¬(t.lastPos < t.range.1 ∨ t.lastPos > t.range.2) := by omega
  rw [handleChange_ret_range env e t hout t' ht',
    adjustTracker_range_ins e t hd h1 h2]

/-- Claim C4, witness: inserting `i` at caret 8 (delta 1) extends the tracked
range `[7, 8)` to `[7, 9)`. -/
theorem C4_witness :
    (wT4.lastLength < wEd4.len ∧ wT4.range.1 ≤ wT4.lastPos ∧
      wT4.lastPos ≤ wT4.range.2) ∧
    (∀ t', (handleChange envOk wEd4 (some wT4)).ret = some t' →
      t'.range = (wT4.range.1, wT4.range.2 + (wEd4.len - wT4.lastLength))) ∧
    (handleChange envOk wEd4 (some wT4)).ret.map (fun t => t.range) = some (7, 9) :=
  ⟨by decide,
   fun t' ht' => C4_insertion_rule.1 envOk wEd4 wT4 (by decide) (by decide)
     (by decide) t' ht',
   by decide⟩

/-- Claim C5: when tracking starts from a single typed character at a word
boundary (non-JSX path), the tracked range is `[pos - 1, end)` where the end
defaults to the caret and is extended by exactly one position if and only if
the typed character is an opening brace/bracket/paren and the character right
after the caret is its matching closer; accordingly, with a tracker over
`div`, a `[` keystroke whose closer was auto-inserted yields tracked text
`"div[]"`, and without the closer the range stops right after the `[`. -/
theorem C5_paired_bracket :
    (∀ env getCtx e pos tr,
      Policy.isJSX e.dialect = false →
      (Policy.startAbbreviationTracking env getCtx e pos).ret = some tr →
      tr.range = (pos - 1, if pairedAfterB e pos then pos + 1 else pos))
    ∧ ((handleChange envOk eA5 (some tA5)).ret.map (fun t => t.range) = some (7, 12)
      ∧ (handleChange envOk eA5 (some tA5)).ret.map (fun t => substr eA5 t.range) =
          some "div[]")
    ∧ ((handleChange envOk eB5 (some tA5)).ret.map (fun t => t.range) = some (7, 11)
      ∧ (handleChange envOk eB5 (some tA5)).ret.map (fun t => substr eB5 t.range) =
          some "div[") := by
  refine ⟨?_, ⟨by decide, by decide⟩, ⟨by decide, by decide⟩⟩
  intro env getCtx e pos tr hjsx htr
  unfold Policy.startAbbreviationTracking at htr
  dsimp only at htr
  rw [if_neg (show ¬ Policy.isJSX e.dialect = true by simp [hjsx])] at htr
  by_cases hwb : Policy.reWordBoundTest (substr e (max 0 (pos - 2), pos)) = true
  case neg =>
    rw [if_neg hwb] at htr
    dsimp only at htr
    rw [if_pos (show (-1 : Int) < 0 by decide)] at htr
    exact absurd htr (by simp)
  case pos =>
    rw [if_pos hwb] at htr
    dsimp only at htr
    by_cases hneg : pos - 1 < 0
    · rw [if_pos hneg] at htr
      exact absurd htr (by simp)
    · rw [if_neg hneg] at htr
      have hend :
          (match (substr e (max 0 (pos - 2), pos)).data.getLast? with
            | some c =>
                match Policy.pairClose c with
                | some cl =>
                    if substr e (pos, pos + 1) = String.mk [cl] then pos + 1 else pos
                | none => pos
            | none => pos) = (if pairedAfterB e pos then pos + 1 else pos) := by
        unfold pairedAfterB
        cases hE : (substr e (max 0 (pos - 2), pos)).data.getLast? with
        | none => rfl
        | some c =>
            dsimp only
            cases hP : Policy.pairClose c with
            | none => rfl
            | some cl =>
                dsimp only
                by_cases hq : substr e (pos, pos + 1) = String.mk [cl]
                · rw [if_pos hq, if_pos (by simp [hq])]
                · rw [if_neg hq, if_neg (by simp [hq])]
      rw [hend] at htr
      cases hctx : getCtx pos with
      | none =>
          rw [hctx] at htr
          exact absurd htr (by simp)
      | some options =>
          rw [hctx] at htr
          dsimp only at htr
          by_cases hsty : (options.type = "stylesheet" ∧
              ¬ Policy.reStylesheetWordBoundTest (substr e (max 0 (pos - 2), pos)) = true)
          · rw [if_pos hsty] at htr
            exact absurd htr (by simp)
          · rw [if_neg hsty] at htr
            set tk := startTracking env e (pos - 1)
              (if pairedAfterB e pos then pos + 1 else pos)
              (some { options := some options, offset := 0 }) with htk
            rcases hab : tk.abbreviation with _ | pa
            · rw [hab] at htr
              dsimp only at htr
              injection htr with hinj
              rw [← hinj, htk, startTracking_range]
            · rcases pa with ⟨a, sm, preview⟩ | ⟨a, m, p⟩
              · rw [hab] at htr
                dsimp only at htr
                by_cases hsil : (options.contextName = some Policy.cssSectionScope ∧
                    preview.startsWith a = true ∧
                    Policy.reEmptyValueTest (jsSliceFrom preview (a.length : Int)) = true)
                · rw [if_pos hsil] at htr
                  exact absurd htr (by simp)
                · rw [if_neg hsil] at htr
                  injection htr with hinj
                  rw [← hinj, htk, startTracking_range]
              · rw [hab] at htr
                dsimp only at htr
                injection htr with hinj
                rw [← hinj, htk, startTracking_range]

/-- Claim C5, witness: in `"a []"` with the caret at 3 (a `[` just typed after
a space, `]` auto-inserted by the host), tracking starts over `[2, 4)`,
absorbing the paired `]`. -/
theorem C5_witness :
    Policy.isJSX wEd5.dialect = false ∧
    (∀ tr, (Policy.startAbbreviationTracking envOk ctxMarkup wEd5 3).ret = some tr →
      tr.range = (3 - 1, if pairedAfterB wEd5 3 then 3 + 1 else 3)) ∧
    (Policy.startAbbreviationTracking envOk ctxMarkup wEd5 3).ret.map
      (fun t => t.range) = some (2, 4) :=
  ⟨by decide,
   fun tr htr => C5_paired_bracket.1 envOk ctxMarkup wEd5 3 tr (by decide) htr,
   by decide⟩

/-- Claim C6: when, after range adjustment and reparse, the new outcome is a
parse error whose raw text equals the preview of the previous (valid) outcome,
`handleChange` destroys the tracker and returns no tracker. -/
theorem C6_completion_accepted (env : Env) (e : Editor) (t : AbbrTracker)
    (a m : String) (p : Int) (la : String) (sm : Bool) (preview : String)
    (hin : ¬(t.lastPos < t.range.1 ∨ t.lastPos > t.range.2))
    (hv : (adjustTracker e t).isValidRange = true)
    (hnew : (updateAbbreviation env e (adjustTracker e t)).abbreviation =
      some (.error a m p))
    (hold : t.abbreviation = some (.abbreviation la sm preview))
    (heq : a = preview) :
    (handleChange env e (some t)).registry = none ∧
    (handleChange env e (some t)).ret = none := by
  rw [handleChange_some_eq env e t hin]
  dsimp only
  rw [if_neg (by rw [hv]; simp)]
  have hacc : completionAccepted
      (updateAbbreviation env e (adjustTracker e t)).abbreviation t.abbreviation = true := by
    rw [hnew, hold]
    unfold completionAccepted
    simp [heq]
  rw [if_pos hacc]
  exact ⟨rfl, rfl⟩

/-- Claim C6, witness: previous outcome valid with preview `"ab"`, the reparse
of the unchanged two-character span fails, and the new raw text `"ab"` equals
the old preview — the tracker is destroyed. -/
theorem C6_witness :
    (¬(wT6.lastPos < wT6.range.1 ∨ wT6.lastPos > wT6.range.2)) ∧
    (adjustTracker wEd6 wT6).isValidRange = true ∧
    (updateAbbreviation envErr wEd6 (adjustTracker wEd6 wT6)).abbreviation =
      some (.error "ab" "Unexpected character" 0) ∧
    wT6.abbreviation = some (.abbreviation "ab" false "ab") ∧
    (handleChange envErr wEd6 (some wT6)).registry = none ∧
    (handleChange envErr wEd6 (some wT6)).ret = none := by
  refine ⟨by decide, by decide, by decide, by decide, ?_⟩
  exact C6_completion_accepted envErr wEd6 wT6 "ab" "Unexpected character" 0
    "ab" false "ab" (by decide) (by decide) (by decide) (by decide) rfl

/-- Claim C7, counterexample: with the claimed direct-hit convention
`start <= pos < end`, the classifier described by the claim disagrees with the
source at offset 4 of `"a: b"` (the end of the property-value token): the
source returns the context while the claimed convention returns none. -/
theorem C7_counterexample :
    CSSCtx.getCSSContext c7code c7toks 4 ≠
      CSSCtx.cssContextSpec false c7code c7toks 4 := by
  decide

/-- Claim C7 (amended): the CSS context scan walks tokens left to right,
stopping unexamined at the first token whose start reaches the offset; a
direct hit uses the convention `start < pos <= end` (attached to the end of a
token), and legality then requires a property-value token; otherwise the
context, with the most recent property name (possibly empty), is returned
exactly when a property name is active or the nesting counter is nonzero. -/
theorem C7_css_scan_convention (code : String) (tokens : List CSSCtx.Token)
    (pos : Int) :
    CSSCtx.getCSSContext code tokens pos =
      CSSCtx.cssContextSpec true code tokens pos := by
  unfold CSSCtx.getCSSContext CSSCtx.cssContextSpec
  rw [scanLoop_spec]
  rfl

/-- Claim C8, counterexample: in the scenario source, no offset inside the
`$foo` token (offsets 0 to 4, all before or at its colon) yields the context
`$foo` — a direct hit on a property-name token is illegal, so the classifier
returns none everywhere inside `$foo`. -/
theorem C8_counterexample :
    CSSCtx.getCSSContext scssSource scssTokens 0 = none ∧
    CSSCtx.getCSSContext scssSource scssTokens 1 = none ∧
    CSSCtx.getCSSContext scssSource scssTokens 2 = none ∧
    CSSCtx.getCSSContext scssSource scssTokens 3 = none ∧
    CSSCtx.getCSSContext scssSource scssTokens 4 = none := by
  decide

/-- Claim C8 (amended): in the scenario source the `$foo` context appears for
an offset in the gap between the `$foo` token and its value (offset 5, right
after the colon) — not inside the token itself (offset 2 yields none); an
offset after the block opening and before any property (offset 14) yields the
empty-name context; an offset at the closing brace's end (offset 27) is
illegal. -/
theorem C8_scenario :
    CSSCtx.getCSSContext scssSource scssTokens 5 = some "$foo" ∧
    CSSCtx.getCSSContext scssSource scssTokens 2 = none ∧
    CSSCtx.getCSSContext scssSource scssTokens 14 = some "" ∧
    CSSCtx.getCSSContext scssSource scssTokens 27 = none := by
  decide

/-- Claim C9, counterexample: in a stylesheet activation context, a character
typed right after a `;` does start tracking — `;` is in the allowed preceding
set of `reStylesheetWordBound`, contradicting the claim that the stylesheet
pattern excludes it. -/
theorem C9_counterexample :
    jsSlice cEd9.content 1 2 = ";" ∧
    (Policy.startAbbreviationTracking envOk ctxStylesheet cEd9 3).ret.isSome = true := by
  decide

/-- Claim C9 (amended): the stylesheet word-boundary pattern excludes `>` from
the allowed preceding set (so tracking never starts in a stylesheet context
right after a `>`), but it keeps `;`, which the markup pattern also allows; the
stylesheet pattern additionally narrows the allowed typed characters to
letters, `!` and `@`. -/
theorem C9_stylesheet_word_bound :
    (∀ c : Char, Policy.reStylesheetWordBoundTest (String.mk ['>', c]) = false)
    ∧ (∀ c : Char, Policy.reWordBoundTest (String.mk ['>', c]) = Policy.isAbbrStart c)
    ∧ (∀ c : Char, Policy.reWordBoundTest (String.mk [';', c]) = Policy.isAbbrStart c)
    ∧ (∀ c : Char, Policy.reStylesheetWordBoundTest (String.mk [';', c]) =
        Policy.isStyleAbbrStart c)
    ∧ (∀ env getCtx e pos opts (c : Char),
        getCtx pos = some opts → opts.type = "stylesheet" →
        (substr e (max 0 (pos - 2), pos)).data = ['>', c] →
        (Policy.startAbbreviationTracking env getCtx e pos).ret = none) := by
  refine ⟨?_, ?_, ?_, ?_, ?_⟩
  · intro c
    unfold Policy.reStylesheetWordBoundTest
    dsimp only
    rw [show Policy.isStyleBoundPre '>' = false by decide, Bool.false_and]
  · intro c
    unfold Policy.reWordBoundTest
    dsimp only
    rw [show Policy.isWordBoundPre '>' = true by decide, Bool.true_and]
  · intro c
    unfold Policy.reWordBoundTest
    dsimp only
    rw [show Policy.isWordBoundPre ';' = true by decide, Bool.true_and]
  · intro c
    unfold Policy.reStylesheetWordBoundTest
    dsimp only
    rw [show Policy.isStyleBoundPre ';' = true by decide, Bool.true_and]
  · intro env getCtx e pos opts c hctx hsty hdata
    unfold Policy.startAbbreviationTracking
    dsimp only
    by_cases hjsx : Policy.isJSX e.dialect = true
    · rw [if_pos hjsx, hdata]
      dsimp only
      rw [if_neg (show ¬ ('>' = Policy.jsxMarker ∧
          Policy.reJSXAbbrStartTest c = true) from fun hc => absurd hc.1 (by decide))]
      rfl
    · rw [if_neg hjsx]
      have hwb : Policy.reWordBoundTest (substr e (max 0 (pos - 2), pos)) =
          Policy.isAbbrStart c := by
        unfold Policy.reWordBoundTest
        rw [hdata]
        dsimp only
        rw [show Policy.isWordBoundPre '>' = true by decide, Bool.true_and]
      by_cases habbr : Policy.isAbbrStart c = true
      · have hwb2 : Policy.reWordBoundTest (substr e (max 0 (pos - 2), pos)) = true := by
          rw [hwb]; exact habbr
        rw [if_pos hwb2]
        dsimp only
        by_cases hneg : pos - 1 < 0
        · rw [if_pos hneg]
        · rw [if_neg hneg, hctx]
          dsimp only
          have hsb : Policy.reStylesheetWordBoundTest (substr e (max 0 (pos - 2), pos)) =
              false := by
            unfold Policy.reStylesheetWordBoundTest
            rw [hdata]
            dsimp only
            rw [show Policy.isStyleBoundPre '>' = false by decide, Bool.false_and]
          rw [if_pos ⟨hsty, by rw [hsb]; simp⟩]
      · rw [if_neg (show ¬ (Policy.reWordBoundTest (substr e (max 0 (pos - 2), pos)) = true)
            by rw [hwb]; exact habbr)]
        rw [if_pos (show (-1 : Int) < 0 by decide)]

/-- Claim C9, witness for the amended theorem: in `"x>p"` with a stylesheet
context, the `p` typed right after the `>` does not start tracking. -/
theorem C9_witness :
    (ctxStylesheet 3 = some { type := "stylesheet" } ∧
      (substr wEd9 (max 0 (3 - 2), 3)).data = ['>', 'p']) ∧
    (Policy.startAbbreviationTracking envOk ctxStylesheet wEd9 3).ret = none :=
  ⟨⟨rfl, by decide⟩,
   C9_stylesheet_word_bound.2.2.2.2 envOk ctxStylesheet wEd9 3
     { type := "stylesheet" } 'p' rfl rfl (by decide)⟩

/-- Claim C10, counterexample: an equal-length change event (delta 0) with the
last caret inside the range does not always keep the tracker registered — a
degenerate non-forced tracker (`range = [5, 5]`, the state
`startTracking(editor, 5, 5)` leaves behind) is destroyed by the validity
check before any reparse. -/
theorem C10_counterexample :
    cEd10.len = cT10.lastLength ∧
    cT10.range.1 ≤ cT10.lastPos ∧ cT10.lastPos ≤ cT10.range.2 ∧
    (handleChange envOk cEd10 (some cT10)).registry = none ∧
    (handleChange envOk cEd10 (some cT10)).ret = none := by
  decide

/-- Claim C10 (amended): for an equal-length change event with the last caret
inside the inclusive range and a valid tracker range, `handleChange` leaves
both range bounds unchanged, updates only `lastPos` (to the current caret) and
`lastLength`, reparses the abbreviation text, and keeps the tracker registered
unless the completion-accepted edge case (new outcome an error whose text
equals the previous valid outcome's preview) applies. -/
theorem C10_equal_length (env : Env) (e : Editor) (t : AbbrTracker)
    (hd : e.len = t.lastLength)
    (h1 : t.range.1 ≤ t.lastPos) (h2 : t.lastPos ≤ t.range.2)
    (hv : t.isValidRange = true) :
    (updateAbbreviation env e
      { t with lastPos := getCaret e, lastLength := e.len }).range = t.range ∧
    handleChange env e (some t) =
      (if completionAccepted
          (updateAbbreviation env e
            { t with lastPos := getCaret e, lastLength := e.len }).abbreviation
          t.abbreviation then
        ⟨(stopTracking e
            (some (updateAbbreviation env e
              { t with lastPos := getCaret e, lastLength := e.len })) false).1,
          none, none⟩
      else
        ⟨e,
          some (updateAbbreviation env e
            { t with lastPos := getCaret e, lastLength := e.len }),
          some (updateAbbreviation env e
            { t with lastPos := getCaret e, lastLength := e.len })⟩) := by
  have hout : ¬(t.lastPos < t.range.1 ∨ t.lastPos > t.range.2) := by omega
  have hadj := adjustTracker_eq_of_same e t hd
  constructor
  · rw [updateAbbreviation_range]
  · have hsame : (adjustTracker e t).isValidRange = t.isValidRange := by
      unfold AbbrTracker.isValidRange
      rw [hadj]
    have hv2 : ¬ ((!(adjustTracker e t).isValidRange) = true) := by
      rw [hsame, hv]
      simp
    rw [handleChange_some_eq env e t hout]
    dsimp only
    rw [if_neg hv2, hadj]

/-- Claim C10, witness: an equal-length event over a valid tracker keeps the
range `[0, 2)` unchanged and the tracker registered. -/
theorem C10_witness :
    (wEd10.len = wT10.lastLength ∧ wT10.range.1 ≤ wT10.lastPos ∧
      wT10.lastPos ≤ wT10.range.2 ∧ wT10.isValidRange = true) ∧
    (updateAbbreviation envOk wEd10
      { wT10 with lastPos := getCaret wEd10, lastLength := wEd10.len }).range =
        wT10.range ∧
    (handleChange envOk wEd10 (some wT10)).registry.map (fun t => t.range) =
      some (0, 2) :=
  ⟨by decide,
   (C10_equal_length envOk wEd10 wT10 (by decide) (by decide) (by decide)
      (by decide)).1,
   by decide⟩

end Emmet
